import Mathlib

/-!
Shallow embedding of the Node.js build orchestrator (`build.js`) of the
build-scripts repository.  Pure fragments of the script (argument lookup,
threshold computation, target resolution, output truncation, test-tool
selection, the coverage gate) are translated to executable Lean functions;
console output and process exit are made explicit as returned data; the
filesystem is abstracted as a predicate `String → Bool` (existence) or as an
explicit directory tree where the code walks directories.
-/

namespace BuildScript

/-- Model of a JavaScript number restricted to what the script needs:
either NaN or a rational value. -/
inductive JSNum where
  | nan : JSNum
  | num (q : ℚ) : JSNum
deriving DecidableEq, Repr

/-- JS whitespace characters recognised by `String.prototype.trim` and by
`Number(...)` (the common ones: space, tab, LF, CR, VT, FF). -/
def isJsWhitespace (c : Char) : Bool :=
  c = ' ' || c = '\t' || c = '\n' || c = '\r' || c = '\x0b' || c = '\x0c'

/-- Model of JS `String.prototype.trim` on the character list. -/
def jsTrimList (l : List Char) : List Char :=
  ((l.dropWhile isJsWhitespace).reverse.dropWhile isJsWhitespace).reverse

/-- Model of JS `String.prototype.trim`. -/
def jsTrim (s : String) : String :=
  String.mk (jsTrimList s.data)

/-- Numeric value of a decimal digit character. -/
def digitVal (c : Char) : ℕ := c.toNat - '0'.toNat

/-- Decimal digits to a natural number (most significant first). -/
def digitsToNat (l : List Char) : ℕ :=
  l.foldl (fun a c => a * 10 + digitVal c) 0

/-- Parse an unsigned decimal numeral, optionally with a fractional part
(`"12"`, `"12.5"`, `".5"`, `"12."`).  Returns `none` when the text is not
such a numeral.  Part of the model of JS `Number(...)`. -/
def parseUnsigned (l : List Char) : Option ℚ :=
  let intPart := l.takeWhile (·.isDigit)
  let rest := l.dropWhile (·.isDigit)
  match rest with
  | [] => if intPart.isEmpty then none else some ((digitsToNat intPart : ℚ))
  | '.' :: frac =>
      if frac.all (·.isDigit) && !(intPart.isEmpty && frac.isEmpty) then
        some ((digitsToNat intPart : ℚ) + (digitsToNat frac : ℚ) / (10 ^ frac.length))
      else none
  | _ => none

/-- Model of JS `Number(string)`: trims whitespace, empty text coerces to 0,
an optionally signed decimal numeral coerces to its value, anything else to
NaN.  (Exponent, hexadecimal and `Infinity` forms, which the script never
relies on, are conservatively mapped to NaN.) -/
def jsNumber (s : String) : JSNum :=
  match jsTrimList s.data with
  | [] => .num 0
  | '+' :: rest =>
      match parseUnsigned rest with
      | some q => .num q
      | none => .nan
  | '-' :: rest =>
      match parseUnsigned rest with
      | some q => .num (-q)
      | none => .nan
  | l =>
      match parseUnsigned l with
      | some q => .num q
      | none => .nan

/-- Model of JS `Number(x)` where `x` may be `undefined` (`Number(undefined)`
is NaN). -/
def jsNumberOpt : Option String → JSNum
  | none => .nan
  | some s => jsNumber s

/-- JS `a ?? b` for a possibly-undefined `a`. -/
def jsNullish (a b : Option String) : Option String :=
  match a with
  | some v => some v
  | none => b

/-- JS `n || d` specialised to a number on the left: NaN and 0 are falsy. -/
def jsOrNum (n : JSNum) (d : ℚ) : ℚ :=
  match n with
  | .nan => d
  | .num q => if q = 0 then d else q

/-- The `getArg(flag, fallback)` from build.js: the argv entry right after the
first occurrence of `flag`, else the fallback.  (When the flag is the last
argv entry the entry after it is `undefined`, i.e. `none`.) -/
def getArg (argv : List String) (flag : String) (fallback : Option String) : Option String :=
  match argv.indexOf? flag with
  | some i => argv.get? (i + 1)
  | none => fallback

/-- The `COVERAGE_THRESHOLD` from build.js line 29:
`Number(process.env.COVERAGE_THRESHOLD ?? getArg("--threshold", "70")) || 70`. -/
def coverageThreshold (env : Option String) (argv : List String) : ℚ :=
  jsOrNum (jsNumberOpt (jsNullish env (getArg argv "--threshold" (some "70")))) 70

/-- Console/exit events of the coverage gate block (lines 495–501). -/
inductive CovEvent where
  | fail (actual required : ℚ) (summaryPath : String) : CovEvent
  | pass (actual required : ℚ) : CovEvent
  | warnNotFound : CovEvent
deriving DecidableEq, Repr

/-- The coverage gate (build.js lines 495–501): below threshold prints the
failure line carrying both percentages and the summary path and exits with
code 1; otherwise prints the OK line and continues.  The returned Boolean is
`true` iff the process exits at the gate. -/
def coverageGate (linePct threshold : ℚ) (summaryPath : String) : List CovEvent × Bool :=
  if linePct < threshold then
    ([CovEvent.fail linePct threshold summaryPath], true)
  else
    ([CovEvent.pass linePct threshold], false)

/-- Model of `path.join` for the paths the script builds (POSIX-style). -/
def joinP (a b : String) : String := a ++ "/" ++ b

/-- The fixed candidate paths of `findCoverageSummary` (lines 405–413),
as functions of the root directory (`ART_DIR = ROOT/artifacts`). -/
def coverageCandidates (root : String) : List String :=
  [joinP (joinP root "coverage") "coverage-summary.json",
   joinP (joinP (joinP root "coverage") "v8") "coverage-summary.json",
   joinP (joinP (joinP root "artifacts") "coverage") "coverage-summary.json"]

/-- The `findCoverageSummary()` (lines 405–413): the first candidate path that
exists, `none` when none does.  The filesystem is abstracted as the
existence predicate `fsEx`. -/
def findCoverageSummary (root : String) (fsEx : String → Bool) : Option String :=
  (coverageCandidates root).find? fsEx

/-- The whole coverage block (lines 463–505): runs only when a
coverage-producing consumer ran (`coverageConsumer !== "none"`); when the
summary artifact is missing it prints a warning and skips the threshold
logic; otherwise it runs the gate on the line-coverage percentage extracted
from the artifact (abstracted as `pctAt`). -/
def coverageBlock (consumer : String) (root : String) (fsEx : String → Bool)
    (pctAt : String → ℚ) (threshold : ℚ) : List CovEvent × Bool :=
  if consumer ≠ "none" then
    match findCoverageSummary root fsEx with
    | some p => coverageGate (pctAt p) threshold p
    | none => ([CovEvent.warnNotFound], false)
  else
    ([], false)

/-- The `MAX_OUTPUT_CHARS` (line 39). -/
def MAX_OUTPUT_CHARS : ℕ := 8000

/-- The `printSection(label, value)` (lines 159–171) as the list of printed
lines: trims the value (`?? ""` for a missing one), prints nothing when the
trimmed text is empty, otherwise a label line and the text, truncated to
`MAX_OUTPUT_CHARS` characters with a truncation notice when longer. -/
def printSection (label : String) (value : Option String) : List String :=
  let text := jsTrim (value.getD "")
  if text = "" then []
  else if MAX_OUTPUT_CHARS < text.length then
    ["  " ++ label ++ ":",
     String.mk (text.data.take MAX_OUTPUT_CHARS),
     "  ... output truncated (" ++ toString (text.length - MAX_OUTPUT_CHARS) ++ " more characters)"]
  else
    ["  " ++ label ++ ":", text]

/-- A pipeline step together with the exit status its external command
returned in the run under consideration: `name` and `allowFailure` as passed
to `runStep` (lines 173–223), `exitCode` the status of `spawnSync`. -/
structure Step where
  name : String
  allowFailure : Bool
  exitCode : ℕ
deriving DecidableEq, Repr

/-- Executing a list of steps through `runStep` (lines 173–223): returns the
names of the steps that executed (in order), the accumulated `softFailures`
names, and whether a hard failure aborted the run (`process.exit(1)` at
line 218). A failing step with `allowFailure` is recorded and the run
continues; a failing step without it stops everything at once. -/
def runSteps : List Step → List String × List String × Bool
  | [] => ([], [], false)
  | s :: rest =>
    if s.exitCode = 0 then
      let (ex, sf, h) := runSteps rest
      (s.name :: ex, sf, h)
    else if s.allowFailure then
      let (ex, sf, h) := runSteps rest
      (s.name :: ex, s.name :: sf, h)
    else
      ([s.name], [], true)

/-- The final summary line (lines 527–532): enumerates the soft-failure
names, or reports overall success. -/
def summaryLine (softFails : List String) : String :=
  if softFails.isEmpty then "All steps OK"
  else "Build completed with issues: " ++ String.intercalate ", " softFails

/-- Outcome of a whole run: which steps executed, which soft-failed, the
process exit code, and the summary line if one was printed. -/
structure RunOutcome where
  executed : List String
  softFails : List String
  exitCode : ℕ
  summary : Option String
deriving DecidableEq, Repr

/-- The run as a whole: the steps execute in order through `runStep`; a hard
failure exits with code 1 before anything else (no summary); otherwise the
coverage gate may exit with code 1 (no summary, lines 495–498); otherwise
the summary line is printed and the process ends with exit code 0. -/
def fullRun (steps : List Step) (gateExits : Bool) : RunOutcome :=
  let (ex, sf, hard) := runSteps steps
  if hard then ⟨ex, sf, 1, none⟩
  else if gateExits then ⟨ex, sf, 1, none⟩
  else ⟨ex, sf, 0, some (summaryLine sf)⟩

/-- The `ALWAYS_IGNORE_DIRS` (lines 53–76). -/
def ALWAYS_IGNORE_DIRS : List String :=
  [".cache", ".git", ".idea", ".next", ".nuxt", ".output", ".pnpm", ".turbo",
   ".venv", ".vscode", "artifacts", "build", "coverage", "coverage-report",
   "coverage-reports", "dist", "logs", "node_modules", "out", "reports",
   "tmp", "temp"]

/-- The `DEFAULT_SOURCE_DIRS` (lines 82–102). -/
def DEFAULT_SOURCE_DIRS : List String :=
  ["src", "app", "apps", "packages", "services", "client", "clients",
   "frontend", "backend", "server", "shared", "lib", "libs", "modules",
   "components", "scripts", "test", "tests", "e2e"]

/-- The `containsGlobPattern` (line 109): the candidate contains `*`, `?`, `[`
or `]`. -/
def containsGlobPattern (s : String) : Bool :=
  s.data.any (fun c => c = '*' || c = '?' || c = '[' || c = ']')

/-- The `normalizeCandidate` (line 111): strip the leading run of `.` and `/`
characters, then turn backslashes into slashes. -/
def normalizeCandidate (c : String) : String :=
  String.mk ((c.data.dropWhile (fun ch => ch = '.' || ch = '/')).map
    (fun ch => if ch = '\\' then '/' else ch))

/-- The `normalized.split("/")[0]` (line 121): the characters before the first
slash (the whole text when it has no slash, empty when it starts with one,
exactly as `split` behaves on its first fragment). -/
def topSegment (s : String) : String :=
  String.mk (s.data.takeWhile (fun c => c != '/'))

/-- One iteration of the `resolveTargets` loop (lines 115–138): the
candidate is normalized and dropped when empty, built-in-ignored, or
user-excluded (by full name or top segment); glob patterns are kept without
a filesystem check; plain paths are kept only when they exist under the
root.  `resolved` is a JS `Set`, modelled as a list with first-insertion
order and a membership test. -/
def resolveStep (root : String) (fsEx : String → Bool) (exclude : List String)
    (acc : List String) (candidate : String) : List String :=
  let n := normalizeCandidate candidate
  if n = "" then acc
  else if ALWAYS_IGNORE_DIRS.contains (topSegment n) then acc
  else if exclude.contains n || exclude.contains (topSegment n) then acc
  else if containsGlobPattern n then
    (if acc.contains n then acc else acc ++ [n])
  else if fsEx (joinP root n) then
    (if acc.contains n then acc else acc ++ [n])
  else acc

/-- The `resolveTargets(candidates)` (lines 113–140). -/
def resolveTargets (root : String) (fsEx : String → Bool) (exclude : List String)
    (candidates : List String) : List String :=
  candidates.foldl (resolveStep root fsEx exclude) []

/-- The `SOURCE_TARGETS` (line 142): user inclusions followed by the default
allowlist, resolved. -/
def SOURCE_TARGETS (root : String) (fsEx : String → Bool)
    (includeDirs excludeDirs : List String) : List String :=
  resolveTargets root fsEx excludeDirs (includeDirs ++ DEFAULT_SOURCE_DIRS)

/-- The `FALLBACK_TARGETS` (line 143): the default allowlist resolved without
the user inclusions (but, per `resolveTargets`, still with the user
exclusions applied). -/
def FALLBACK_TARGETS (root : String) (fsEx : String → Bool)
    (excludeDirs : List String) : List String :=
  resolveTargets root fsEx excludeDirs DEFAULT_SOURCE_DIRS

/-- The `PRETTIER_TARGETS` / `ESLINT_TARGETS` (lines 144–145): the resolved
source targets, or the fallback when they are empty. -/
def formatterTargets (root : String) (fsEx : String → Bool)
    (includeDirs excludeDirs : List String) : List String :=
  let s := SOURCE_TARGETS root fsEx includeDirs excludeDirs
  if s.length ≠ 0 then s else FALLBACK_TARGETS root fsEx excludeDirs

/-- The parts of a parsed `package.json` the script reads.  A missing or
unparsable manifest (`readJSON` returning `null`) behaves exactly like the
empty record, since every access goes through `?.` with a fallback. -/
structure PackageJson where
  scripts : List (String × String)
  dependencies : List (String × String)
  devDependencies : List (String × String)
deriving DecidableEq, Repr

/-- JS truthiness of an optional string field (`undefined` and `""` are
falsy). -/
def jsTruthy (o : Option String) : Bool :=
  match o with
  | some s => s != ""
  | none => false

/-- A word character for the regex `\b` boundary: `[A-Za-z0-9_]`. -/
def isWordChar (c : Char) : Bool := c.isAlpha || c.isDigit || c = '_'

/-- The `\b` holds between `prev` and the next character: at the ends of the
text, or next to a non-word character. -/
def boundaryOk : Option Char → Bool
  | some c => !isWordChar c
  | none => true

/-- The word `w` occurs at the head of `l` with `\b` boundaries on both
sides (`prev` is the character just before `l`, if any). -/
def wordAt (w : List Char) (prev : Option Char) (l : List Char) : Bool :=
  boundaryOk prev && w.isPrefixOf l && boundaryOk (l.drop w.length).head?

/-- Scan of all positions for a `\b w \b` occurrence. -/
def mentionsWordFrom (w : List Char) : Option Char → List Char → Bool
  | prev, [] => wordAt w prev []
  | prev, c :: rest => wordAt w prev (c :: rest) || mentionsWordFrom w (some c) rest

/-- Model of `/\b<w>\b/.test(s)` for a word `w` made of word characters. -/
def mentionsWord (w s : String) : Bool := mentionsWordFrom w.data none s.data

/-- The `pkg?.scripts?.[name]`. -/
def scriptOf (p : PackageJson) (name : String) : Option String :=
  p.scripts.lookup name

/-- The `defaultTestScript` (line 306): `pkg?.scripts?.test ?? ""`. -/
def defaultTestScript (p : PackageJson) : String := (scriptOf p "test").getD ""

/-- The `unitScriptName` (line 307): `"test:unit"` when that script is truthy,
else `"test"` when the default test script is truthy, else `null`. -/
def unitScriptName (p : PackageJson) : Option String :=
  if jsTruthy (scriptOf p "test:unit") then some "test:unit"
  else if defaultTestScript p != "" then some "test"
  else none

/-- The `unitScriptCommand` (line 308). -/
def unitScriptCommand (p : PackageJson) : String :=
  match unitScriptName p with
  | some n => (scriptOf p n).getD ""
  | none => ""

/-- The `usesVitest` (line 312): the unit script command mentions `vitest` as a
word, or a (truthy) `vitest` dependency/devDependency is declared. -/
def usesVitest (p : PackageJson) : Bool :=
  mentionsWord "vitest" (unitScriptCommand p)
    || jsTruthy (p.devDependencies.lookup "vitest")
    || jsTruthy (p.dependencies.lookup "vitest")

/-- The `usesJest` (line 313). -/
def usesJest (p : PackageJson) : Bool :=
  mentionsWord "jest" (unitScriptCommand p)
    || jsTruthy (p.devDependencies.lookup "jest")
    || jsTruthy (p.dependencies.lookup "jest")

/-- The unit-test dispatch outcome (lines 353–371). -/
inductive TestTool where
  | vitest : TestTool
  | jest : TestTool
  | c8 (script : String) : TestTool
  | noTool : TestTool
deriving DecidableEq, Repr

/-- The unit-test dispatch (lines 353–371): vitest first, then jest, then
the generic script under c8, otherwise the skip branch. -/
def selectTestTool (p : PackageJson) : TestTool :=
  if usesVitest p then .vitest
  else if usesJest p then .jest
  else
    match unitScriptName p with
    | some n => .c8 n
    | none => .noTool

/-- A filesystem-write operation performed by the orchestrator itself. -/
inductive FsWrite where
  | mkdir (path : String) : FsWrite
  | copyFile (src dst : String) : FsWrite
  | remove (path : String) : FsWrite
deriving DecidableEq, Repr

/-- Whether a write effect is a file copy. -/
def isCopy : FsWrite → Bool
  | .copyFile _ _ => true
  | _ => false

/-- A directory entry as seen through `readdirSync(..., { withFileTypes:
true })`: a file, or a directory with its own entries. -/
inductive Dirent where
  | file (name : String) : Dirent
  | dir (name : String) (children : List Dirent) : Dirent

/-- The `COMPLEXITY_PRUNE_DIRS` (line 79). -/
def COMPLEXITY_PRUNE_DIRS : List String :=
  ["dist", "node_modules", "artifacts", "coverage", "build"]

/-- The `MAX_COMPLEXITY_PRUNE_DEPTH` (line 80). -/
def MAX_COMPLEXITY_PRUNE_DEPTH : ℕ := 4

/-- The `pruneComplexityArtifacts(basePath, depth)` (lines 426–455) as the list
of `rmSync` removals it performs on the given entries.  The code stops when
`depth > MAX_COMPLEXITY_PRUNE_DEPTH`; here `fuel = MAX + 1 - depth` counts
the remaining levels, so the top-level call has fuel `MAX + 1`.  A directory
whose name is in `COMPLEXITY_PRUNE_DIRS` is removed recursively; other
directories are descended into. -/
def prunePaths : ℕ → String → List Dirent → List FsWrite
  | 0, _, _ => []
  | fuel + 1, base, entries =>
      entries.foldr (fun d acc =>
        match d with
        | .file _ => acc
        | .dir n cs =>
            (if COMPLEXITY_PRUNE_DIRS.contains n then [FsWrite.remove (joinP base n)]
             else prunePaths fuel (joinP base n) cs) ++ acc) []

/-- The `pruneComplexitySources()` (lines 457–461): prune under each complexity
target.  `tree` gives the directory entries found at a path. -/
def pruneComplexitySources (root : String) (targets : List String)
    (tree : String → List Dirent) : List FsWrite :=
  (targets.map (fun t =>
    prunePaths (MAX_COMPLEXITY_PRUNE_DEPTH + 1) (joinP root t) (tree (joinP root t)))).flatten

/-- All filesystem writes performed by the orchestration logic itself in one
run: the two unconditional `mkdirSync` calls at startup (lines 26–27), one
`copyFileSync` per Playwright report found (line 392, the copies that
actually happened are a parameter), and the recursive removals of
`pruneComplexitySources` before the complexity step (line 508). -/
def orchestratorWriteEffects (root : String) (playwrightCopies : List (String × String))
    (complexityTargets : List String) (tree : String → List Dirent) : List FsWrite :=
  [FsWrite.mkdir (joinP root "artifacts"),
   FsWrite.mkdir (joinP (joinP root "artifacts") "test-results")]
    ++ playwrightCopies.map (fun sd => FsWrite.copyFile sd.1 sd.2)
    ++ pruneComplexitySources root complexityTargets tree

/-- A write-effect list contains an effect that is not a file copy. -/
def hasNonCopyWrite (l : List FsWrite) : Bool := l.any (fun e => !isCopy e)

/-! ## Theorems -/

/-- C1: a summary whose line-coverage percentage is at least the threshold
passes the coverage gate (no exit; the boundary is inclusive), and one
strictly below it makes the gate exit non-zero after printing both the
actual and required percentages and the summary-file path. -/
theorem coverageGate_inclusive_boundary (l t : ℚ) (p : String) :
    (t ≤ l → coverageGate l t p = ([CovEvent.pass l t], false)) ∧
    (l < t → coverageGate l t p = ([CovEvent.fail l t p], true)) := by
  constructor
  · intro h
    simp [coverageGate, not_lt.mpr h]
  · intro h
    simp [coverageGate, h]

/-- Witness for C1: line coverage exactly at the threshold (70 = 70) passes,
one unit below (69 < 70) fails with the full failure event. -/
theorem coverageGate_inclusive_boundary_witness :
    coverageGate 70 70 "coverage/coverage-summary.json" =
      ([CovEvent.pass 70 70], false) ∧
    coverageGate 69 70 "coverage/coverage-summary.json" =
      ([CovEvent.fail 69 70 "coverage/coverage-summary.json"], true) :=
  ⟨(coverageGate_inclusive_boundary 70 70 "coverage/coverage-summary.json").1 (by norm_num),
   (coverageGate_inclusive_boundary 69 70 "coverage/coverage-summary.json").2 (by norm_num)⟩

/-- C6: the environment variable wins over the flag.  When
`COVERAGE_THRESHOLD` is set, the effective threshold is computed from it
alone (the argv flag plays no part); when it is unset and `--threshold t`
is given, the threshold is computed from `t`; when neither is present it is
the default 70. -/
theorem coverageThreshold_precedence (e t : String) (argv : List String) :
    (coverageThreshold (some e) argv = jsOrNum (jsNumber e) 70) ∧
    (getArg argv "--threshold" (some "70") = some t →
      coverageThreshold none argv = jsOrNum (jsNumber t) 70) ∧
    (argv.contains "--threshold" = false → coverageThreshold none argv = 70) := by
  refine ⟨rfl, ?_, ?_⟩
  · intro h
    simp [coverageThreshold, jsNullish, h, jsNumberOpt]
  · intro h
    have hmem : "--threshold" ∉ argv := by simpa using h
    have hidx : argv.indexOf? "--threshold" = none := by
      rw [List.indexOf?_eq_none_iff]
      intro x hx hbeq
      rw [beq_iff_eq] at hbeq
      exact hmem (hbeq ▸ hx)
    have h70 : jsNumber "70" = JSNum.num 70 := by decide
    have hnz : jsOrNum (JSNum.num 70) 70 = 70 := by norm_num [jsOrNum]
    simp [coverageThreshold, jsNullish, getArg, hidx, jsNumberOpt, h70, hnz]

/-- Witness for C6: env `"80"` beats flag `--threshold 75`; with no env the
flag value 75 is used; with neither the default 70 is used. -/
theorem coverageThreshold_precedence_witness :
    coverageThreshold (some "80") ["--threshold", "75"] = 80 ∧
    coverageThreshold none ["--threshold", "75"] = 75 ∧
    coverageThreshold none [] = 70 := by
  have h := coverageThreshold_precedence "80" "75" ["--threshold", "75"]
  have h0 := coverageThreshold_precedence "80" "75" ([] : List String)
  refine ⟨h.1.trans (by decide), (h.2.1 (by decide)).trans (by decide), h0.2.2 (by decide)⟩

/-- C10: whenever the selected override text (env var first, else the flag
value, else the literal "70") coerces to NaN or to 0, the effective
threshold silently becomes 70; and for every environment/argv combination
the effective threshold is non-zero (it is a rational in this model, so it
is in particular never NaN), i.e. a threshold of 0 cannot be requested. -/
theorem coverageThreshold_never_zero (env : Option String) (argv : List String) :
    ((jsNumberOpt (jsNullish env (getArg argv "--threshold" (some "70"))) = JSNum.nan ∨
      jsNumberOpt (jsNullish env (getArg argv "--threshold" (some "70"))) = JSNum.num 0) →
      coverageThreshold env argv = 70) ∧
    coverageThreshold env argv ≠ 0 := by
  unfold coverageThreshold
  rcases hn : jsNumberOpt (jsNullish env (getArg argv "--threshold" (some "70"))) with _ | q
  · exact ⟨fun _ => rfl, by norm_num [jsOrNum]⟩
  · constructor
    · rintro (h | h)
      · exact absurd h (by simp)
      · obtain rfl : q = 0 := by simpa using h
        simp [jsOrNum]
    · by_cases hq : q = 0
      · subst hq
        norm_num [jsOrNum]
      · simp only [jsOrNum, if_neg hq]
        exact hq

/-- Witness for C10: the non-numeric env value `"abc"` and the zero env
value `"0"` both yield threshold 70, and a well-formed request is non-zero. -/
theorem coverageThreshold_never_zero_witness :
    coverageThreshold (some "abc") [] = 70 ∧
    coverageThreshold (some "0") [] = 70 ∧
    coverageThreshold (some "55") [] ≠ 0 :=
  ⟨(coverageThreshold_never_zero (some "abc") []).1 (Or.inl (by decide)),
   (coverageThreshold_never_zero (some "0") []).1 (Or.inr (by decide)),
   (coverageThreshold_never_zero (some "55") []).2⟩

/-- C9: the threshold comparison happens only when a coverage-producing test
step ran and a summary artifact was found: when the consumer ran but no
candidate path exists, the block prints the warning and does not exit; and
whenever the block exits the process, a consumer had run and a summary had
been located. -/
theorem coverageBlock_skips_when_missing (consumer root : String) (fsEx : String → Bool)
    (pctAt : String → ℚ) (th : ℚ) :
    (consumer ≠ "none" → (∀ c ∈ coverageCandidates root, fsEx c = false) →
      coverageBlock consumer root fsEx pctAt th = ([CovEvent.warnNotFound], false)) ∧
    ((coverageBlock consumer root fsEx pctAt th).2 = true →
      consumer ≠ "none" ∧ ∃ p, findCoverageSummary root fsEx = some p) := by
  constructor
  · intro hc hnone
    have hfind : findCoverageSummary root fsEx = none := by
      rw [findCoverageSummary, List.find?_eq_none]
      intro x hx
      simp [hnone x hx]
    simp [coverageBlock, hc, hfind]
  · intro hexit
    by_cases hc : consumer = "none"
    · simp [coverageBlock, hc] at hexit
    · refine ⟨hc, ?_⟩
      rcases hfind : findCoverageSummary root fsEx with _ | p
      · simp [coverageBlock, hc, hfind] at hexit
      · exact ⟨p, rfl⟩

/-- Witness for C9: with a vitest consumer and an empty filesystem the gate
is skipped with a warning and the process does not exit. -/
theorem coverageBlock_skips_when_missing_witness :
    coverageBlock "vitest" "R" (fun _ => false) (fun _ => 0) 70 =
      ([CovEvent.warnNotFound], false) :=
  (coverageBlock_skips_when_missing "vitest" "R" (fun _ => false) (fun _ => 0) 70).1
    (by decide) (by intro c _; rfl)

/-- The `runSteps` on a list whose failures are all soft: every step executes,
the soft failures are exactly the failing steps' names in order, and no hard
failure occurs. -/
theorem runSteps_all_soft (steps : List Step)
    (h : ∀ s ∈ steps, s.exitCode ≠ 0 → s.allowFailure = true) :
    runSteps steps =
      (steps.map Step.name, (steps.filter (fun s => s.exitCode != 0)).map Step.name, false) := by
  induction steps with
  | nil => rfl
  | cons s rest ih =>
      have hrest : ∀ u ∈ rest, u.exitCode ≠ 0 → u.allowFailure = true :=
        fun u hu => h u (List.mem_cons_of_mem _ hu)
      by_cases h0 : s.exitCode = 0
      · simp [runSteps, h0, ih hrest, List.filter_cons]
      · have ha : s.allowFailure = true := h s (List.mem_cons_self _ _) h0
        simp [runSteps, h0, ha, ih hrest, List.filter_cons]

/-- The `runSteps` when the first hard failure is reached: the steps before it
(all succeeding or soft) execute, the failing hard step executes, and the
run stops there with the hard-failure flag set. -/
theorem runSteps_append_hard (pre : List Step) (s : Step) (post : List Step)
    (hpre : ∀ t ∈ pre, t.exitCode = 0 ∨ t.allowFailure = true)
    (hs : s.exitCode ≠ 0) (hsHard : s.allowFailure = false) :
    runSteps (pre ++ s :: post) =
      (pre.map Step.name ++ [s.name],
       (pre.filter (fun t => t.exitCode != 0)).map Step.name, true) := by
  induction pre with
  | nil => simp [runSteps, hs, hsHard]
  | cons t rest ih =>
      have hrest : ∀ u ∈ rest, u.exitCode = 0 ∨ u.allowFailure = true :=
        fun u hu => hpre u (List.mem_cons_of_mem _ hu)
      by_cases h0 : t.exitCode = 0
      · simp [runSteps, h0, ih hrest, List.filter_cons]
      · have ha : t.allowFailure = true :=
          (hpre t (List.mem_cons_self _ _)).resolve_left h0
        simp [runSteps, h0, ha, ih hrest, List.filter_cons]

/-- C2: when a hard-failure step's command returns non-zero, the whole run
ends at once with exit code 1, the final summary is not printed, and no step
after it executes (the executed steps are exactly those before it plus the
failing one). -/
theorem hardFailure_aborts_run (pre : List Step) (s : Step) (post : List Step) (g : Bool)
    (hpre : ∀ t ∈ pre, t.exitCode = 0 ∨ t.allowFailure = true)
    (hs : s.exitCode ≠ 0) (hsHard : s.allowFailure = false) :
    (fullRun (pre ++ s :: post) g).exitCode = 1 ∧
    (fullRun (pre ++ s :: post) g).summary = none ∧
    (fullRun (pre ++ s :: post) g).executed = pre.map Step.name ++ [s.name] := by
  simp [fullRun, runSteps_append_hard pre s post hpre hs hsHard]

/-- Witness for C2: `Format` succeeds, `TypeCheck` hard-fails with status 2,
so the `Unit` step never runs, no summary appears and the exit code is 1. -/
theorem hardFailure_aborts_run_witness :
    (fullRun [⟨"Format", false, 0⟩, ⟨"TypeCheck", false, 2⟩, ⟨"Unit", false, 0⟩]
        false).exitCode = 1 ∧
    (fullRun [⟨"Format", false, 0⟩, ⟨"TypeCheck", false, 2⟩, ⟨"Unit", false, 0⟩]
        false).summary = none ∧
    (fullRun [⟨"Format", false, 0⟩, ⟨"TypeCheck", false, 2⟩, ⟨"Unit", false, 0⟩]
        false).executed = ["Format", "TypeCheck"] := by
  have h := hardFailure_aborts_run [⟨"Format", false, 0⟩] ⟨"TypeCheck", false, 2⟩
    [⟨"Unit", false, 0⟩] false (by decide) (by decide) (by decide)
  exact ⟨h.1, h.2.1, h.2.2.trans (by decide)⟩

/-- C3: when every failing step is a soft-failure step and the coverage gate
does not exit, every step executes, the process exits with code 0, and the
summary line enumerates exactly the failing steps' names. -/
theorem softFailuresOnly_run (steps : List Step)
    (h : ∀ s ∈ steps, s.exitCode ≠ 0 → s.allowFailure = true) :
    fullRun steps false =
      ⟨steps.map Step.name,
       (steps.filter (fun s => s.exitCode != 0)).map Step.name,
       0,
       some (summaryLine ((steps.filter (fun s => s.exitCode != 0)).map Step.name))⟩ := by
  simp [fullRun, runSteps_all_soft steps h]

/-- Witness for C3: `Lint` soft-fails and `Playwright` soft-fails, every
step still runs, the exit code is 0 and the summary enumerates both names. -/
theorem softFailuresOnly_run_witness :
    fullRun [⟨"Lint", true, 1⟩, ⟨"TypeCheck", false, 0⟩, ⟨"Playwright", true, 3⟩] false =
      ⟨["Lint", "TypeCheck", "Playwright"], ["Lint", "Playwright"], 0,
       some "Build completed with issues: Lint, Playwright"⟩ :=
  (softFailuresOnly_run
    [⟨"Lint", true, 1⟩, ⟨"TypeCheck", false, 0⟩, ⟨"Playwright", true, 3⟩]
    (by decide)).trans (by decide)

/-- The acceptance test a single candidate must pass in the
`resolveTargets` loop: non-empty after normalization, not built-in-ignored,
not user-excluded, and a glob pattern or an existing path. -/
def accepts (root : String) (fsEx : String → Bool) (exclude : List String)
    (c : String) : Bool :=
  let n := normalizeCandidate c
  !(n == "") && !(ALWAYS_IGNORE_DIRS.contains (topSegment n))
    && !(exclude.contains n || exclude.contains (topSegment n))
    && (containsGlobPattern n || fsEx (joinP root n))

/-- A Boolean that is not true is false. -/
theorem eqFalseOfNotTrue {b : Bool} (h : ¬b = true) : b = false := by
  cases b
  · rfl
  · exact absurd rfl h

/-- The `l.contains a` agrees with membership (lawful `BEq`). -/
theorem contains_iff_mem {α : Type} [BEq α] [LawfulBEq α] (l : List α) (a : α) :
    l.contains a = true ↔ a ∈ l := by
  simp [List.contains, List.elem_iff]

/-- Membership after one `resolveTargets` iteration: the accumulator's
members, plus the candidate's normalization when it is accepted. -/
theorem mem_resolveStep_iff (root : String) (fsEx : String → Bool)
    (exclude acc : List String) (c x : String) :
    x ∈ resolveStep root fsEx exclude acc c ↔
      x ∈ acc ∨ (accepts root fsEx exclude c = true ∧ x = normalizeCandidate c) := by
  simp only [resolveStep]
  by_cases h1 : normalizeCandidate c = ""
  · have hA : accepts root fsEx exclude c = false := by
      simp [accepts, h1]
    rw [if_pos h1]
    simp [hA]
  · rw [if_neg h1]
    by_cases h2 : ALWAYS_IGNORE_DIRS.contains (topSegment (normalizeCandidate c)) = true
    · have hA : accepts root fsEx exclude c = false := by
        simp only [accepts, h2, Bool.not_true, Bool.and_false, Bool.false_and]
      rw [if_pos h2]
      simp [hA]
    · rw [if_neg h2]
      by_cases h3 : (exclude.contains (normalizeCandidate c)
          || exclude.contains (topSegment (normalizeCandidate c))) = true
      · have hA : accepts root fsEx exclude c = false := by
          simp only [accepts, h3, Bool.not_true, Bool.and_false, Bool.false_and]
        rw [if_pos h3]
        simp [hA]
      · rw [if_neg h3]
        have e1 : (normalizeCandidate c == "") = false := beq_eq_false_iff_ne.mpr h1
        have e2 := eqFalseOfNotTrue h2
        have e3 := eqFalseOfNotTrue h3
        by_cases h4 : containsGlobPattern (normalizeCandidate c) = true
        · have hA : accepts root fsEx exclude c = true := by
            simp only [accepts, e1, e2, e3, h4, Bool.not_false, Bool.true_and,
              Bool.true_or, Bool.and_self]
          rw [if_pos h4, hA]
          by_cases h5 : acc.contains (normalizeCandidate c) = true
          · rw [if_pos h5]
            constructor
            · exact Or.inl
            · rintro (hx | ⟨-, rfl⟩)
              · exact hx
              · exact (contains_iff_mem acc _).mp h5
          · rw [if_neg h5]
            simp [List.mem_append]
        · rw [if_neg h4]
          have e4 := eqFalseOfNotTrue h4
          by_cases h6 : fsEx (joinP root (normalizeCandidate c)) = true
          · have hA : accepts root fsEx exclude c = true := by
              simp only [accepts, e1, e2, e3, e4, h6, Bool.not_false, Bool.true_and,
                Bool.false_or, Bool.and_self]
            rw [if_pos h6, hA]
            by_cases h5 : acc.contains (normalizeCandidate c) = true
            · rw [if_pos h5]
              constructor
              · exact Or.inl
              · rintro (hx | ⟨-, rfl⟩)
                · exact hx
                · exact (contains_iff_mem acc _).mp h5
            · rw [if_neg h5]
              simp [List.mem_append]
          · have hA : accepts root fsEx exclude c = false := by
              simp only [accepts, e1, e2, e3, e4, eqFalseOfNotTrue h6, Bool.not_false,
                Bool.true_and, Bool.false_or, Bool.and_false]
            rw [if_neg h6, hA]
            simp

/-- Membership in the `resolveTargets` fold: the accumulator's members plus
the normalizations of accepted candidates. -/
theorem mem_foldl_resolveStep (root : String) (fsEx : String → Bool)
    (exclude : List String) (cands acc : List String) (x : String) :
    x ∈ cands.foldl (resolveStep root fsEx exclude) acc ↔
      x ∈ acc ∨ ∃ c ∈ cands, accepts root fsEx exclude c = true ∧
        x = normalizeCandidate c := by
  induction cands generalizing acc with
  | nil => simp
  | cons c rest ih =>
      rw [List.foldl_cons, ih, mem_resolveStep_iff]
      simp only [List.exists_mem_cons_iff]
      tauto

/-- Membership in `resolveTargets`: exactly the normalizations of accepted
candidates. -/
theorem mem_resolveTargets_iff (root : String) (fsEx : String → Bool)
    (exclude cands : List String) (x : String) :
    x ∈ resolveTargets root fsEx exclude cands ↔
      ∃ c ∈ cands, accepts root fsEx exclude c = true ∧
        x = normalizeCandidate c := by
  rw [resolveTargets, mem_foldl_resolveStep]
  simp

/-- Every fallback target is already a source target: the fallback resolves
a subset of the source candidates under the same filters. -/
theorem fallback_subset_source (root : String) (fsEx : String → Bool)
    (includeDirs excludeDirs : List String) (x : String)
    (hx : x ∈ FALLBACK_TARGETS root fsEx excludeDirs) :
    x ∈ SOURCE_TARGETS root fsEx includeDirs excludeDirs := by
  rw [FALLBACK_TARGETS, mem_resolveTargets_iff] at hx
  rw [SOURCE_TARGETS, mem_resolveTargets_iff]
  obtain ⟨c, hc, h⟩ := hx
  exact ⟨c, List.mem_append_right _ hc, h⟩

/-- C4 counterexample: with `--exclude-dirs src` on a disk where `src` is
the only allowlisted directory that exists, the resolved source set is empty
and the fallback is empty as well — the formatter/linter targets stay empty
even though an allowlisted directory exists on disk, because the fallback
does not ignore the user's exclusions. -/
theorem resolveFallback_counterexample :
    formatterTargets "R" (fun p => p == "R/src") [] ["src"] = [] ∧
    (fun p : String => p == "R/src") (joinP "R" "src") = true ∧
    DEFAULT_SOURCE_DIRS.contains "src" = true := by decide

/-- C4 (amended): when the resolved union of user inclusions and the
default allowlist is empty, the formatter/linter targets do fall back to
re-resolving the default allowlist without the user inclusions — but the
fallback still applies the user exclusions and the built-in ignore list, and
since each of its candidates was already among the source candidates, the
fallback is necessarily empty too: the steps never regain a non-empty
target this way. -/
theorem fallback_is_vacuous (root : String) (fsEx : String → Bool)
    (includeDirs excludeDirs : List String)
    (h : SOURCE_TARGETS root fsEx includeDirs excludeDirs = []) :
    formatterTargets root fsEx includeDirs excludeDirs =
      FALLBACK_TARGETS root fsEx excludeDirs ∧
    FALLBACK_TARGETS root fsEx excludeDirs = [] := by
  have hfb : FALLBACK_TARGETS root fsEx excludeDirs = [] := by
    rw [List.eq_nil_iff_forall_not_mem]
    intro x hx
    have hmem := fallback_subset_source root fsEx includeDirs excludeDirs x hx
    rw [h] at hmem
    exact absurd hmem (List.not_mem_nil x)
  refine ⟨?_, hfb⟩
  simp [formatterTargets, h, hfb]

/-- Witness for C4 (amended): on an empty disk the source set is empty, the
formatter targets equal the fallback, and the fallback is empty too. -/
theorem fallback_is_vacuous_witness :
    formatterTargets "E" (fun _ => false) [] [] =
      FALLBACK_TARGETS "E" (fun _ => false) [] ∧
    FALLBACK_TARGETS "E" (fun _ => false) [] = [] :=
  fallback_is_vacuous "E" (fun _ => false) [] [] (by decide)

/-- Every removal the pruning walk performs deletes a directory whose name
is one of the prune names, whatever the tree looks like. -/
theorem mem_prunePaths (fuel : ℕ) (base : String) (entries : List Dirent) (e : FsWrite)
    (he : e ∈ prunePaths fuel base entries) :
    ∃ b n, COMPLEXITY_PRUNE_DIRS.contains n = true ∧ e = FsWrite.remove (joinP b n) := by
  induction fuel generalizing base entries with
  | zero => simp [prunePaths] at he
  | succ f ih =>
      rw [prunePaths] at he
      induction entries with
      | nil => simp at he
      | cons d rest ihr =>
          simp only [List.foldr_cons] at he
          cases d with
          | file nm => exact ihr he
          | dir n cs =>
              rcases List.mem_append.mp he with h | h
              · by_cases hn : COMPLEXITY_PRUNE_DIRS.contains n = true
                · rw [if_pos hn] at h
                  exact ⟨base, n, hn, List.mem_singleton.mp h⟩
                · rw [if_neg hn] at h
                  exact ih (joinP base n) cs h
              · exact ihr h

/-- C5 (amended): the filesystem-write side effects the orchestrator itself
performs are exactly of three kinds — the two startup `mkdirSync` calls for
the artifacts and test-results directories, the copies of external-tool
report files, and the recursive removals of directories named
dist/node_modules/artifacts/coverage/build under the complexity targets.
The report copy is therefore not the only write effect. -/
theorem orchestratorWrites_classified (root : String) (pc : List (String × String))
    (cts : List String) (tree : String → List Dirent) (e : FsWrite)
    (he : e ∈ orchestratorWriteEffects root pc cts tree) :
    e = FsWrite.mkdir (joinP root "artifacts") ∨
    e = FsWrite.mkdir (joinP (joinP root "artifacts") "test-results") ∨
    isCopy e = true ∨
    ∃ b n, COMPLEXITY_PRUNE_DIRS.contains n = true ∧ e = FsWrite.remove (joinP b n) := by
  unfold orchestratorWriteEffects at he
  rcases List.mem_append.mp he with h | h
  · rcases List.mem_append.mp h with h2 | h2
    · rcases List.mem_cons.mp h2 with h3 | h3
      · exact Or.inl h3
      · rcases List.mem_cons.mp h3 with h4 | h4
        · exact Or.inr (Or.inl h4)
        · exact absurd h4 (List.not_mem_nil e)
    · obtain ⟨sd, _, rfl⟩ := List.mem_map.mp h2
      exact Or.inr (Or.inr (Or.inl rfl))
  · unfold pruneComplexitySources at h
    obtain ⟨l, hl, hel⟩ := List.mem_flatten.mp h
    obtain ⟨t, _, rfl⟩ := List.mem_map.mp hl
    exact Or.inr (Or.inr (Or.inr (mem_prunePaths _ _ _ e hel)))

/-- Witness for C5 (amended): the startup mkdir of the artifacts directory
is one of the run's write effects and is classified by the first
disjunct. -/
theorem orchestratorWrites_classified_witness :
    FsWrite.mkdir (joinP "R" "artifacts") = FsWrite.mkdir (joinP "R" "artifacts") ∨
    FsWrite.mkdir (joinP "R" "artifacts") =
      FsWrite.mkdir (joinP (joinP "R" "artifacts") "test-results") ∨
    isCopy (FsWrite.mkdir (joinP "R" "artifacts")) = true ∨
    ∃ b n, COMPLEXITY_PRUNE_DIRS.contains n = true ∧
      FsWrite.mkdir (joinP "R" "artifacts") = FsWrite.remove (joinP b n) :=
  orchestratorWrites_classified "R" [] [] (fun _ => [])
    (FsWrite.mkdir (joinP "R" "artifacts")) (by decide)

/-- C5 counterexample: even in a run with no Playwright copy at all the
orchestrator performs write effects that are not copies (the startup
`mkdirSync` calls), and with a `dist` directory under a complexity target it
also performs a recursive removal — so the report copy is not the only
filesystem-write side effect of the orchestration logic. -/
theorem orchestratorWrites_counterexample :
    hasNonCopyWrite (orchestratorWriteEffects "R" [] [] (fun _ => [])) = true ∧
    FsWrite.remove (joinP (joinP "R" "src") "dist") ∈
      orchestratorWriteEffects "R" [] ["src"] (fun _ => [Dirent.dir "dist" []]) := by
  constructor
  · decide
  · decide

/-- The length of a string built from a character list. -/
theorem length_mk (l : List Char) : (String.mk l).length = l.length := rfl

/-- A string built from a non-empty character list is not the empty
string. -/
theorem mk_ne_empty (l : List Char) (h : l ≠ []) : String.mk l ≠ "" := by
  intro hc
  exact h (congrArg String.data hc)

/-- The `jsTrim` leaves a run of one non-whitespace character unchanged. -/
theorem jsTrim_replicate (n : ℕ) (c : Char) (h : isJsWhitespace c = false) :
    jsTrim (String.mk (List.replicate n c)) = String.mk (List.replicate n c) := by
  unfold jsTrim jsTrimList
  rw [show (String.mk (List.replicate n c)).data = List.replicate n c from rfl]
  rw [List.dropWhile_replicate, if_neg (by simp [h]), List.reverse_replicate,
    List.dropWhile_replicate, if_neg (by simp [h]), List.reverse_replicate]

/-- Trimming 8000 `a`s followed by one space yields the 8000 `a`s. -/
theorem jsTrimList_block_space :
    jsTrimList (List.replicate 8000 'a' ++ [' ']) = List.replicate 8000 'a' := by
  have hws : isJsWhitespace 'a' = false := by decide
  have hrep : List.replicate 8000 'a' ≠ [] :=
    List.length_pos.mp (by rw [List.length_replicate]; norm_num)
  have h1 : List.dropWhile isJsWhitespace (List.replicate 8000 'a' ++ [' ']) =
      List.replicate 8000 'a' ++ [' '] := by
    rw [List.dropWhile_append, List.dropWhile_replicate]
    rw [if_neg (show ¬(isJsWhitespace 'a' = true) by simp [hws])]
    rw [if_neg (show ¬((List.replicate 8000 'a').isEmpty = true) by
      rw [List.isEmpty_iff]; exact hrep)]
  unfold jsTrimList
  rw [h1, List.reverse_append, List.reverse_replicate, List.reverse_singleton,
    List.singleton_append, List.dropWhile_cons]
  rw [show isJsWhitespace ' ' = true from by decide]
  simp only [if_true]
  rw [List.dropWhile_replicate, if_neg (by simp [hws]), List.reverse_replicate]

/-- C7 counterexample: a captured output of 8000 `a`s followed by a space
has 8001 characters — more than the 8000-character budget — yet the code
trims it first, prints the 8000 `a`s in full, and emits no truncation
notice, contrary to the claim's required "first 8000 characters plus a
notice stating 1 more characters". -/
theorem printSection_counterexample :
    (String.mk (List.replicate 8000 'a' ++ [' '])).length = 8001 ∧
    printSection "stdout" (some (String.mk (List.replicate 8000 'a' ++ [' ']))) =
      ["  stdout:", String.mk (List.replicate 8000 'a')] := by
  have ht : jsTrim (String.mk (List.replicate 8000 'a' ++ [' '])) =
      String.mk (List.replicate 8000 'a') := by
    unfold jsTrim
    rw [show (String.mk (List.replicate 8000 'a' ++ [' '])).data =
        List.replicate 8000 'a' ++ [' '] from rfl, jsTrimList_block_space]
  have hrep : List.replicate 8000 'a' ≠ [] :=
    List.length_pos.mp (by rw [List.length_replicate]; norm_num)
  constructor
  · rw [length_mk, List.length_append, List.length_replicate, List.length_singleton]
  · unfold printSection
    rw [Option.getD_some, ht, if_neg (mk_ne_empty _ hrep),
      if_neg (by rw [length_mk, List.length_replicate]; norm_num [MAX_OUTPUT_CHARS])]
    rw [show "  " ++ "stdout" ++ ":" = "  stdout:" from by decide]

/-- C7 (amended): the truncation applies to the captured output after JS
`trim`.  When the trimmed text exceeds 8000 characters, the printed lines
are the label, the first 8000 characters of the trimmed text, and a notice
stating how many more characters were omitted — "1 more characters" for a
trimmed length of exactly 8001; trimmed text of at most 8000 characters is
printed in full with no notice. -/
theorem printSection_truncates_trimmed (label v : String) :
    (MAX_OUTPUT_CHARS < (jsTrim v).length →
      printSection label (some v) =
        ["  " ++ label ++ ":",
         String.mk ((jsTrim v).data.take MAX_OUTPUT_CHARS),
         "  ... output truncated (" ++
           toString ((jsTrim v).length - MAX_OUTPUT_CHARS) ++ " more characters)"]) ∧
    (jsTrim v ≠ "" → (jsTrim v).length ≤ MAX_OUTPUT_CHARS →
      printSection label (some v) = ["  " ++ label ++ ":", jsTrim v]) ∧
    ((jsTrim v).length = MAX_OUTPUT_CHARS + 1 →
      printSection label (some v) =
        ["  " ++ label ++ ":", String.mk ((jsTrim v).data.take MAX_OUTPUT_CHARS),
         "  ... output truncated (1 more characters)"]) := by
  have truncEq : MAX_OUTPUT_CHARS < (jsTrim v).length →
      printSection label (some v) =
        ["  " ++ label ++ ":",
         String.mk ((jsTrim v).data.take MAX_OUTPUT_CHARS),
         "  ... output truncated (" ++
           toString ((jsTrim v).length - MAX_OUTPUT_CHARS) ++ " more characters)"] := by
    intro h
    have hne : jsTrim v ≠ "" := by
      intro hc
      rw [hc] at h
      norm_num [MAX_OUTPUT_CHARS, String.length] at h
    unfold printSection
    rw [Option.getD_some, if_neg hne, if_pos h]
  refine ⟨truncEq, ?_, ?_⟩
  · intro hne hle
    unfold printSection
    rw [Option.getD_some, if_neg hne, if_neg (not_lt.mpr hle)]
  · intro h
    have hres := truncEq (by rw [h]; exact Nat.lt_succ_self _)
    rw [hres, h]
    rw [show MAX_OUTPUT_CHARS + 1 - MAX_OUTPUT_CHARS = 1 from by simp]
    rw [show "  ... output truncated (" ++ toString (1 : ℕ) ++ " more characters)" =
      "  ... output truncated (1 more characters)" from by decide]

/-- Witness for C7 (amended): output of exactly 8001 non-whitespace
characters prints the first 8000 of them plus the notice
"1 more characters". -/
theorem printSection_truncates_trimmed_witness :
    printSection "stdout" (some (String.mk (List.replicate 8001 'a'))) =
      ["  stdout:", String.mk (List.replicate 8000 'a'),
       "  ... output truncated (1 more characters)"] := by
  have ht : jsTrim (String.mk (List.replicate 8001 'a')) =
      String.mk (List.replicate 8001 'a') :=
    jsTrim_replicate 8001 'a' (by decide)
  have h := (printSection_truncates_trimmed "stdout" (String.mk (List.replicate 8001 'a'))).2.2
  rw [ht] at h
  have hres := h (by rw [length_mk, List.length_replicate]; norm_num [MAX_OUTPUT_CHARS])
  refine hres.trans ?_
  rw [show (String.mk (List.replicate 8001 'a')).data = List.replicate 8001 'a' from rfl,
    List.take_replicate,
    show min MAX_OUTPUT_CHARS 8001 = 8000 from by norm_num [MAX_OUTPUT_CHARS]]
  rw [show "  " ++ "stdout" ++ ":" = "  stdout:" from by decide]

/-- C8 counterexample: a manifest whose `test` script key exists but holds
the empty string.  The script exists, yet no unit-test step is selected
(the code tests truthiness, not existence), contrary to the claim's
"if a test or test:unit script exists, the generic script wrapped with c8
is chosen". -/
theorem selectTestTool_counterexample :
    (scriptOf ⟨[("test", "")], [], []⟩ "test").isSome = true ∧
    selectTestTool ⟨[("test", "")], [], []⟩ = TestTool.noTool := by
  constructor
  · decide
  · decide

/-- C8 (amended): the unit-test tool is selected in priority order — vitest
when it is referenced (as a word in the selected unit script, or as a truthy
dependency/devDependency), else jest when so referenced, else the generic
unit script wrapped with c8 when a *non-empty* `test:unit` or `test` script
exists, else no tool (the skip branch); a script key holding an empty
string counts as absent. -/
theorem selectTestTool_priority (p : PackageJson) :
    (selectTestTool p = TestTool.vitest ↔ usesVitest p = true) ∧
    (selectTestTool p = TestTool.jest ↔ usesVitest p = false ∧ usesJest p = true) ∧
    (∀ s, selectTestTool p = TestTool.c8 s ↔
      usesVitest p = false ∧ usesJest p = false ∧ unitScriptName p = some s) ∧
    (selectTestTool p = TestTool.noTool ↔
      usesVitest p = false ∧ usesJest p = false ∧ unitScriptName p = none) ∧
    (unitScriptName p = none ↔
      jsTruthy (scriptOf p "test:unit") = false ∧ defaultTestScript p = "") := by
  have hu : unitScriptName p = none ↔
      jsTruthy (scriptOf p "test:unit") = false ∧ defaultTestScript p = "" := by
    unfold unitScriptName
    by_cases h1 : jsTruthy (scriptOf p "test:unit") = true
    · simp [h1]
    · rw [if_neg h1]
      by_cases h2 : defaultTestScript p = ""
      · simp [eqFalseOfNotTrue h1, h2]
      · simp [eqFalseOfNotTrue h1, h2, bne_iff_ne]
  have hmain : (selectTestTool p = TestTool.vitest ↔ usesVitest p = true) ∧
      (selectTestTool p = TestTool.jest ↔ usesVitest p = false ∧ usesJest p = true) ∧
      (∀ s, selectTestTool p = TestTool.c8 s ↔
        usesVitest p = false ∧ usesJest p = false ∧ unitScriptName p = some s) ∧
      (selectTestTool p = TestTool.noTool ↔
        usesVitest p = false ∧ usesJest p = false ∧ unitScriptName p = none) := by
    by_cases hv : usesVitest p = true
    · simp [selectTestTool, hv]
    · have hv' := eqFalseOfNotTrue hv
      by_cases hj : usesJest p = true
      · simp [selectTestTool, hv', hj]
      · have hj' := eqFalseOfNotTrue hj
        rcases hn : unitScriptName p with _ | s
        · simp [selectTestTool, hv', hj', hn]
        · simp [selectTestTool, hv', hj', hn]
  exact ⟨hmain.1, hmain.2.1, hmain.2.2.1, hmain.2.2.2, hu⟩

end BuildScript
